import Mathlib

/-!
# Verification of the Account signing/submission core (`src/account/default.ts`)

Shallow embedding of the `Account` class. Field elements, addresses, nonces,
selectors and signature components are modelled by their numeric value as `Nat`
(the TypeScript code shuttles them between decimal strings, hex strings and
big-number objects; those are representations of the same numeric value, so the
representation conversions `toBN`, `toHex`, `toString` become the identity at
this level of abstraction).

The network-bound collaborators (`Provider.callContract`,
`Provider.invokeFunction`) and the `Signer` live outside the embedded file and
are modelled as oracles collected in an `Env`; each Account operation returns
the ordered trace of external events it performed together with its outcome,
so that claims about "no network call" or "no signing work" are statements
about the trace.
-/

/-- Error outcomes: `usage` for synchronous argument-validation throws in the
embedded code, `network` for failures injected by the external oracles,
`badResult` for a malformed oracle response (e.g. an empty `result` array,
which in the source would crash the `result[0]` access). -/
inductive Err where
  | usage (msg : String)
  | network (msg : String)
  | badResult (msg : String)
deriving DecidableEq, Repr

/-- Modelled from the spec: numeric conversion `toBN` from `utils/number` (not
under `src/`); values are already modelled numerically, so it is the
identity. -/
def toBN (x : Nat) : Nat := x

/-- Modelled from the spec: hex-string rendering `toHex` from `utils/number`
(not under `src/`); at the numeric level of the model it is the identity. -/
def toHex (x : Nat) : Nat := x

/-- Modelled from the spec: `bigNumberishArrayToDecimalStringArray` from
`utils/number` (not under `src/`) maps each entry through the numeric
conversion (decimal rendering is dropped by the numeric model). -/
def bigNumberishArrayToDecimalStringArray (xs : List Nat) : List Nat :=
  xs.map toBN

/-- Modelled from the spec: the external selector function (`getSelectorFromName`
from `utils/stark`, not under `src/`): a deterministic hash of the entrypoint
name string. The concrete function is arbitrary; every claim treats it as an
opaque deterministic map. -/
def getSelectorFromName (name : String) : Nat :=
  name.data.foldl (fun a c => a * 256 + c.toNat) 1

/-- Modelled from the spec: a raw calldata argument value for the calldata
compiler — a field element scalar or a (possibly nested) sequence. -/
inductive RawArg where
  | felt (n : Nat)
  | arr (xs : List RawArg)

mutual

/-- Modelled from the spec: encoding of one argument — scalars are encoded as
themselves, arrays as a length-prefix element followed by their elements in
order, flattened depth-first. -/
def compileArg : RawArg → List Nat
  | .felt n => [n]
  | .arr xs => xs.length :: compileArgs xs

/-- Encoding of a sequence of arguments, in order. -/
def compileArgs : List RawArg → List Nat
  | [] => []
  | a :: rest => compileArg a ++ compileArgs rest

end

/-- Modelled from the spec: `compileCalldata` from `utils/stark` (not under
`src/`): maps a name-to-value mapping (in insertion order) to the flat ordered
sequence of field elements. -/
def compileCalldata (args : List (String × RawArg)) : List Nat :=
  compileArgs (args.map Prod.snd)

/-- Modelled from the spec: an ABI entry, accepted for forward compatibility;
its contents are opaque to this core. -/
structure Abi where
  raw : String
deriving DecidableEq, Repr

/-- An inner invocation as accepted by `execute`:
`{contractAddress, entrypoint, calldata?}`; `calldata` is optional in the
source (`calldata = []` default during destructuring). -/
structure ExecuteInvocation where
  contractAddress : Nat
  entrypoint : String
  calldata : Option (List Nat)
deriving DecidableEq, Repr

/-- The optional details argument of `execute`: an optional nonce override. -/
structure InvocationsDetails where
  nonce : Option Nat
deriving DecidableEq, Repr

/-- The argument of `execute`: a single invocation object or an array of
invocations (`ExecuteInvocation | ExecuteInvocation[]`). -/
inductive TxArg where
  | single (tx : ExecuteInvocation)
  | list (txs : List ExecuteInvocation)
deriving DecidableEq, Repr

/-- A read-only contract call request, as passed to `callContract`. -/
structure CallReq where
  contractAddress : Nat
  entrypoint : String
  calldata : List Nat
deriving DecidableEq, Repr

/-- One invocation record inside the payload handed to
`signer.signTransaction`. -/
structure SignInvocation where
  contractAddress : Nat
  calldata : List Nat
  entrypoint : String
deriving DecidableEq, Repr

/-- The full payload handed to `signer.signTransaction`: the invocation array,
the `{walletAddress, nonce}` details, and the abis. -/
structure SignReq where
  transactions : List SignInvocation
  walletAddress : Nat
  nonce : Nat
  abis : List Abi
deriving DecidableEq, Repr

/-- A state-changing submission request, as passed to `invokeFunction`. -/
structure InvokeReq where
  contractAddress : Nat
  entrypoint : String
  calldata : List Nat
  signature : List Nat
deriving DecidableEq, Repr

/-- Modelled from the spec: the response of `invokeFunction`
(`{transaction hash, code}`). -/
structure AddTxResponse where
  code : String
  transactionHash : Nat
deriving DecidableEq, Repr

/-- One external event performed by an Account operation, in order. -/
inductive Event where
  | callContract (req : CallReq)
  | sign (req : SignReq)
  | invokeFunction (req : InvokeReq)
deriving DecidableEq, Repr

/-- The external world: the provider's read and submit interfaces and the
signer, each free to succeed or fail on any request. -/
structure Env where
  callContract : CallReq → Except Err (List Nat)
  signTransaction : SignReq → Except Err (List Nat)
  invokeFunction : InvokeReq → Except Err AddTxResponse

/-- The Account façade state: its address. The key pair is held by the signer,
which is modelled through `Env.signTransaction`. -/
structure Account where
  address : Nat
deriving DecidableEq, Repr

/-- The request `getNonce` issues: a read-only call of the account contract's
`get_nonce` entrypoint, with no calldata. -/
def getNonceRequest (acc : Account) : CallReq :=
  { contractAddress := acc.address, entrypoint := "get_nonce", calldata := [] }

/-- `Account.getNonce`: call `get_nonce` through the external call interface
and decode the first element of the result (`toHex(toBN(result[0]))`). -/
def Account.getNonce (acc : Account) (env : Env) : List Event × Except Err Nat :=
  ([Event.callContract (getNonceRequest acc)],
    match env.callContract (getNonceRequest acc) with
    | .error e => .error e
    | .ok result =>
      match result.head? with
      | some x => .ok (toHex (toBN x))
      | none => .error (.badResult "get_nonce returned no result"))

/-- The nonce step of `execute`: `toBN(nonce ?? (await this.getNonce()))` —
use the caller's override when present, otherwise resolve externally. -/
def resolveNonce (acc : Account) (env : Env) (transactionsDetail : InvocationsDetails) :
    List Event × Except Err Nat :=
  match transactionsDetail.nonce with
  | some n => ([], .ok (toBN n))
  | none =>
    match Account.getNonce acc env with
    | (tr, .error e) => (tr, .error e)
    | (tr, .ok x) => (tr, .ok (toBN x))

/-- The payload `execute` hands to `signer.signTransaction`: the single
invocation (with compiled calldata), `{walletAddress, nonce}`, and the abis. -/
def signRequest (acc : Account) (tx : ExecuteInvocation) (nonceBn : Nat)
    (abis : List Abi) : SignReq :=
  { transactions :=
      [{ contractAddress := tx.contractAddress
         calldata := bigNumberishArrayToDecimalStringArray (tx.calldata.getD [])
         entrypoint := tx.entrypoint }]
    walletAddress := acc.address
    nonce := nonceBn
    abis := abis }

/-- The submission request `execute` hands to `invokeFunction`: the account's
own address, the generic `execute` entrypoint, outer calldata
`[contractAddress, entrypointSelector, calldata.length, ...calldata, nonce]`,
and the signature. -/
def invokeRequest (acc : Account) (tx : ExecuteInvocation) (nonceBn : Nat)
    (signature : List Nat) : InvokeReq :=
  { contractAddress := acc.address
    entrypoint := "execute"
    calldata :=
      tx.contractAddress ::
        getSelectorFromName tx.entrypoint ::
          (bigNumberishArrayToDecimalStringArray (tx.calldata.getD [])).length ::
            (bigNumberishArrayToDecimalStringArray (tx.calldata.getD []) ++ [nonceBn])
    signature := signature }

/-- The tail of `execute` after the nonce is resolved: sign the transaction,
then submit the wrapped invocation. -/
def executeStage2 (acc : Account) (env : Env) (tx : ExecuteInvocation)
    (abis : List Abi) (nonceBn : Nat) : List Event × Except Err AddTxResponse :=
  let sreq := signRequest acc tx nonceBn abis
  match env.signTransaction sreq with
  | .error e => ([Event.sign sreq], .error e)
  | .ok signature =>
    let ireq := invokeRequest acc tx nonceBn signature
    ([Event.sign sreq, Event.invokeFunction ireq], env.invokeFunction ireq)

/-- `execute` on the one accepted invocation: resolve the nonce (propagating a
failure unchanged), then sign and submit. -/
def Account.executeTx (acc : Account) (env : Env) (tx : ExecuteInvocation)
    (abis : List Abi) (transactionsDetail : InvocationsDetails) :
    List Event × Except Err AddTxResponse :=
  match resolveNonce acc env transactionsDetail with
  | (tr, .error e) => (tr, .error e)
  | (tr, .ok nonceBn) =>
    let st := executeStage2 acc env tx abis nonceBn
    (tr ++ st.1, st.2)

/-- `Account.execute`: reject an array argument unless its length is exactly
one (`throw new Error('Only one transaction at a time is currently
supported')`), then run the single accepted invocation. -/
def Account.execute (acc : Account) (env : Env) (transactions : TxArg)
    (abis : List Abi) (transactionsDetail : InvocationsDetails) :
    List Event × Except Err AddTxResponse :=
  match transactions with
  | .list txs =>
    if h : txs.length = 1 then
      Account.executeTx acc env (txs.get ⟨0, by omega⟩) abis transactionsDetail
    else
      ([], .error (.usage "Only one transaction at a time is currently supported"))
  | .single tx => Account.executeTx acc env tx abis transactionsDetail

/-- The request `verifyMessageHash` issues: a read-only call of the account
contract's `is_valid_signature` entrypoint with compiled calldata
`{hash, signature}`. -/
def isValidSigRequest (acc : Account) (hash : Nat) (signature : List Nat) : CallReq :=
  { contractAddress := acc.address
    entrypoint := "is_valid_signature"
    calldata :=
      compileCalldata
        [("hash", RawArg.felt (toBN hash)),
         ("signature", RawArg.arr (signature.map (fun x => RawArg.felt (toBN x))))] }

/-- `Account.verifyMessageHash`: try the delegated `is_valid_signature` call,
returning `true` on success and `false` on any failure (catch-all). -/
def Account.verifyMessageHash (acc : Account) (env : Env) (hash : Nat)
    (signature : List Nat) : List Event × Bool :=
  ([Event.callContract (isValidSigRequest acc hash signature)],
    match env.callContract (isValidSigRequest acc hash signature) with
    | .ok _ => true
    | .error _ => false)

/-- Modelled from the spec: a TypedData value — domain-separator values, the
primary type name, the type declarations (name to ordered field-name/field-type
list), and the message values. -/
structure TypedData where
  domain : List (String × Nat)
  primaryType : String
  types : List (String × List (String × String))
  message : List (String × Nat)
deriving DecidableEq, Repr

/-- Modelled from the spec: the external one-way hash primitive over two field
elements; the concrete function is arbitrary (it is a trusted external
library), chosen deterministic. -/
def hashTwo (a b : Nat) : Nat :=
  (a * 1000003 + b + 7) % (2 ^ 251 + 17 * 2 ^ 192 + 1)

/-- Deterministic hash of a string, folding the primitive over its characters. -/
def hashString (s : String) : Nat :=
  s.data.foldl (fun a c => hashTwo a c.toNat) 3

/-- Deterministic hash of a name/value list, folding in declared order. -/
def hashPairs (l : List (String × Nat)) : Nat :=
  l.foldl (fun a p => hashTwo (hashTwo a (hashString p.1)) p.2) 5

/-- Deterministic hash of the type declarations, folding in declared order. -/
def hashTypes (l : List (String × List (String × String))) : Nat :=
  l.foldl
    (fun a t =>
      hashTwo (hashTwo a (hashString t.1))
        (t.2.foldl (fun b f => hashTwo (hashTwo b (hashString f.1)) (hashString f.2)) 5))
    5

/-- Modelled from the spec: `getMessageHash` from `utils/typedData` (not under
`src/`): the domain-separated, type-tagged struct hash of a TypedData value
bound to an account address — a deterministic pure function of both. -/
def getMessageHash (td : TypedData) (address : Nat) : Nat :=
  hashTwo
    (hashTwo (hashTwo (hashString "StarkNet Message") (hashPairs td.domain)) address)
    (hashTwo (hashTwo (hashString td.primaryType) (hashTypes td.types))
      (hashPairs td.message))

/-- `Account.hashMessage`: the struct hash of the typed data bound to this
account's address; pure, no network interaction. -/
def Account.hashMessage (acc : Account) (td : TypedData) : Nat :=
  getMessageHash td acc.address

/-- `Account.verifyMessage`: hash the typed data, then delegate to
`verifyMessageHash`. -/
def Account.verifyMessage (acc : Account) (env : Env) (td : TypedData)
    (signature : List Nat) : List Event × Bool :=
  let hash := Account.hashMessage acc td
  Account.verifyMessageHash acc env hash signature

/-! ## Test fixtures (concrete environments and inputs for witnesses) -/

/-- A concrete account at address 1. -/
def accT : Account := { address := 1 }

/-- The spec's scenario invocation: transfer on contract 2 with calldata
[2, 100]. -/
def txT : ExecuteInvocation :=
  { contractAddress := 2, entrypoint := "transfer", calldata := some [2, 100] }

/-- An environment whose oracles always succeed. -/
def testEnv : Env where
  callContract := fun _ => .ok [7]
  signTransaction := fun _ => .ok [11, 12]
  invokeFunction := fun _ => .ok { code := "TRANSACTION_RECEIVED", transactionHash := 99 }

/-- An environment whose read interface always fails with a network error. -/
def failEnv : Env where
  callContract := fun _ => .error (.network "ECONNREFUSED")
  signTransaction := fun _ => .ok [11, 12]
  invokeFunction := fun _ => .ok { code := "TRANSACTION_RECEIVED", transactionHash := 99 }

/-! ## Helper lemmas -/

/-- Compiling a list of scalar arguments yields exactly those scalars. -/
theorem compileArgs_map_felt (s : List Nat) :
    compileArgs (s.map RawArg.felt) = s := by
  induction s with
  | nil => rfl
  | cons a rest ih => simp [compileArgs, compileArg, ih]

/-- The decimal-string conversion is the identity on the numeric model. -/
theorem bigNumberishArray_id (xs : List Nat) :
    bigNumberishArrayToDecimalStringArray xs = xs := by
  unfold bigNumberishArrayToDecimalStringArray
  rw [show toBN = id from rfl, List.map_id]

/-- The stage-2 trace never contains a read-only contract call: after the
nonce step, execute only signs and submits. -/
theorem executeStage2_no_callContract (acc : Account) (env : Env)
    (tx : ExecuteInvocation) (abis : List Abi) (nonceBn : Nat) (req : CallReq) :
    Event.callContract req ∉ (executeStage2 acc env tx abis nonceBn).1 := by
  unfold executeStage2
  cases h : env.signTransaction (signRequest acc tx nonceBn abis) <;> simp [h]

/-! ## Claim theorems -/

/-- C1: for every invocation accepted by execute (with whatever nonce the
nonce step resolves and whatever signature the signer returns), the outer
calldata submitted to the account's generic `execute` entrypoint is exactly
[inner contract address, selector of the entrypoint name, inner calldata
length, inner calldata elements in order, nonce]. -/
theorem execute_outer_calldata (acc : Account) (env : Env) (tx : ExecuteInvocation)
    (abis : List Abi) (d : InvocationsDetails) (nonceBn : Nat) (sig : List Nat)
    (hn : (resolveNonce acc env d).2 = Except.ok nonceBn)
    (hs : env.signTransaction (signRequest acc tx nonceBn abis) = Except.ok sig) :
    Event.invokeFunction
      { contractAddress := acc.address
        entrypoint := "execute"
        calldata :=
          tx.contractAddress :: getSelectorFromName tx.entrypoint ::
            (tx.calldata.getD []).length :: (tx.calldata.getD [] ++ [nonceBn])
        signature := sig }
      ∈ (Account.execute acc env (TxArg.single tx) abis d).1 := by
  rcases hr : resolveNonce acc env d with ⟨tr, r⟩
  have hr2 : r = Except.ok nonceBn := by
    have := hn
    rw [hr] at this
    exact this
  subst hr2
  simp [Account.execute, Account.executeTx, hr, executeStage2, hs, invokeRequest,
    bigNumberishArray_id]

/-- C2: an array argument with more than one invocation makes execute fail
immediately with the descriptive single-transaction error; the event trace is
empty, so no network call (no nonce resolution, no submission) and no signing
work happens. -/
theorem execute_multiple_rejected (acc : Account) (env : Env)
    (txs : List ExecuteInvocation) (abis : List Abi) (d : InvocationsDetails)
    (h : 1 < txs.length) :
    Account.execute acc env (TxArg.list txs) abis d =
      ([], Except.error
        (Err.usage "Only one transaction at a time is currently supported")) := by
  simp only [Account.execute]
  rw [dif_neg (by omega)]

/-- C2 witness: two invocations in one request are rejected with an empty
trace. -/
theorem execute_multiple_rejected_witness :
    Account.execute accT testEnv (TxArg.list [txT, txT]) [] { nonce := none } =
      ([], Except.error
        (Err.usage "Only one transaction at a time is currently supported")) :=
  execute_multiple_rejected accT testEnv [txT, txT] [] { nonce := none } (by simp)

/-- C3: verifyMessageHash returns true exactly when the delegated
`is_valid_signature` call succeeds, and false when it fails for any reason;
its result type is Bool, so no error ever propagates. -/
theorem verifyMessageHash_ok_iff (acc : Account) (env : Env) (hsh : Nat)
    (sig : List Nat) :
    (Account.verifyMessageHash acc env hsh sig).2 =
      (env.callContract (isValidSigRequest acc hsh sig)).isOk := by
  unfold Account.verifyMessageHash
  cases env.callContract (isValidSigRequest acc hsh sig) <;> rfl

/-- C4: verifyMessage returns exactly the boolean of verifyMessageHash applied
to the hash of the typed data (the composition of hashMessage and
verifyMessageHash). -/
theorem verifyMessage_composition (acc : Account) (env : Env) (td : TypedData)
    (sig : List Nat) :
    (Account.verifyMessage acc env td sig).2 =
      (Account.verifyMessageHash acc env (Account.hashMessage acc td) sig).2 := rfl

/-- C5: the delegated `is_valid_signature` call issued by verifyMessageHash
carries calldata exactly [hash, signature length, signature elements in
order]: the signature array is length-prefixed. -/
theorem verifyMessageHash_call_calldata (acc : Account) (env : Env) (hsh : Nat)
    (sig : List Nat) :
    (Account.verifyMessageHash acc env hsh sig).1 =
      [Event.callContract
        { contractAddress := acc.address
          entrypoint := "is_valid_signature"
          calldata := hsh :: (sig.length :: sig) }] := by
  unfold Account.verifyMessageHash isValidSigRequest
  simp [compileCalldata, compileArgs, compileArg, toBN, compileArgs_map_felt]

/-- C6: with a nonce override, execute performs no read-only contract call at
all (in particular no get_nonce fetch) and its whole run is the stage-2 path
at the supplied nonce; without an override, the first external event is the
get_nonce call. -/
theorem execute_nonce_override_frame (acc : Account) (env : Env)
    (tx : ExecuteInvocation) (abis : List Abi) :
    (∀ n req, Event.callContract req ∉
        (Account.execute acc env (TxArg.single tx) abis { nonce := some n }).1) ∧
    (∀ n, Account.execute acc env (TxArg.single tx) abis { nonce := some n } =
        executeStage2 acc env tx abis (toBN n)) ∧
    ((Account.execute acc env (TxArg.single tx) abis { nonce := none }).1.head? =
      some (Event.callContract (getNonceRequest acc))) := by
  refine ⟨?_, ?_, ?_⟩
  · intro n req
    simp only [Account.execute, Account.executeTx, resolveNonce]
    simpa using executeStage2_no_callContract acc env tx abis (toBN n) req
  · intro n
    simp [Account.execute, Account.executeTx, resolveNonce]
  · simp only [Account.execute, Account.executeTx, resolveNonce, Account.getNonce]
    cases h : env.callContract (getNonceRequest acc) with
    | error e => simp [h]
    | ok result => cases hh : result.head? <;> simp [h, hh]

/-- C6 witness: with nonce override 5 against the always-successful
environment, no read-only contract call appears in the trace. -/
theorem execute_nonce_override_frame_witness :
    Event.callContract (getNonceRequest accT) ∉
      (Account.execute accT testEnv (TxArg.single txT) [] { nonce := some 5 }).1 :=
  (execute_nonce_override_frame accT testEnv txT []).1 5 (getNonceRequest accT)

/-- C7: when no override is supplied and the underlying get_nonce read fails,
execute's outcome is that very error, unchanged, and its trace is exactly the
single failed call — no signing and no submission happen. -/
theorem execute_nonce_failure_propagates (acc : Account) (env : Env)
    (tx : ExecuteInvocation) (abis : List Abi) (e : Err)
    (h : env.callContract (getNonceRequest acc) = Except.error e) :
    Account.execute acc env (TxArg.single tx) abis { nonce := none } =
      ([Event.callContract (getNonceRequest acc)], Except.error e) := by
  simp [Account.execute, Account.executeTx, resolveNonce, Account.getNonce, h]

/-- C7 witness: against the failing environment, execute propagates the
network error and performs only the one failed call. -/
theorem execute_nonce_failure_propagates_witness :
    Account.execute accT failEnv (TxArg.single txT) [] { nonce := none } =
      ([Event.callContract (getNonceRequest accT)],
        Except.error (Err.network "ECONNREFUSED")) :=
  execute_nonce_failure_propagates accT failEnv txT []
    (Err.network "ECONNREFUSED") rfl

/-- C8: an invocation with omitted calldata behaves exactly like one with
explicit empty calldata, and the outer calldata it produces carries a length
prefix of 0: [contract address, selector, 0, nonce]. -/
theorem execute_omitted_calldata_empty (acc : Account) (env : Env) (ca : Nat)
    (ep : String) (abis : List Abi) (d : InvocationsDetails) (nonceBn : Nat)
    (sig : List Nat) :
    Account.execute acc env
        (TxArg.single { contractAddress := ca, entrypoint := ep, calldata := none })
        abis d =
      Account.execute acc env
        (TxArg.single
          { contractAddress := ca, entrypoint := ep, calldata := some [] })
        abis d ∧
    (invokeRequest acc
        { contractAddress := ca, entrypoint := ep, calldata := none }
        nonceBn sig).calldata =
      [ca, getSelectorFromName ep, 0, nonceBn] := by
  exact ⟨rfl, rfl⟩

/-- C9: every array argument whose length is not exactly one — the empty array
included — is rejected with the single-transaction error before any external
event. -/
theorem execute_list_length_ne_one_rejected (acc : Account) (env : Env)
    (txs : List ExecuteInvocation) (abis : List Abi) (d : InvocationsDetails)
    (h : txs.length ≠ 1) :
    Account.execute acc env (TxArg.list txs) abis d =
      ([], Except.error
        (Err.usage "Only one transaction at a time is currently supported")) := by
  simp only [Account.execute]
  rw [dif_neg h]

/-- C9 witness: the empty batch is rejected with an empty trace. -/
theorem execute_list_length_ne_one_rejected_witness :
    Account.execute accT testEnv (TxArg.list []) [] { nonce := none } =
      ([], Except.error
        (Err.usage "Only one transaction at a time is currently supported")) :=
  execute_list_length_ne_one_rejected accT testEnv [] [] { nonce := none } (by simp)

/-- C10: verifyMessageHash never inspects the returned result of the delegated
call: any successful response, whatever data it carries, yields true. -/
theorem verifyMessageHash_any_ok_true (acc : Account) (env : Env) (hsh : Nat)
    (sig : List Nat) (r : List Nat)
    (h : env.callContract (isValidSigRequest acc hsh sig) = Except.ok r) :
    (Account.verifyMessageHash acc env hsh sig).2 = true := by
  unfold Account.verifyMessageHash
  rw [h]

/-- C10 witness: a successful response carrying arbitrary data [7] yields
true. -/
theorem verifyMessageHash_any_ok_true_witness :
    (Account.verifyMessageHash accT testEnv 1234 [11, 12]).2 = true :=
  verifyMessageHash_any_ok_true accT testEnv 1234 [11, 12] [7] rfl

/-- C1 witness: the spec scenario (contract 2, transfer, calldata [2, 100],
nonce 5) produces outer calldata [2, selector, 2, 2, 100, 5] in the submitted
request. -/
theorem execute_outer_calldata_witness :
    Event.invokeFunction
      { contractAddress := 1
        entrypoint := "execute"
        calldata := 2 :: getSelectorFromName "transfer" :: 2 :: ([2, 100] ++ [5])
        signature := [11, 12] }
      ∈ (Account.execute accT testEnv (TxArg.single txT) [] { nonce := some 5 }).1 :=
  execute_outer_calldata accT testEnv txT [] { nonce := some 5 } 5 [11, 12] rfl rfl
